import Mathlib

/-!
# GekkoFS staging tool (`src/staging/main.go`)

A shallow embedding of the staging orchestrator: the configuration lookups,
the shell command lines it builds with `fmt.Sprintf`, and the control flow of
`GenerateHostFile`, `stageIn`, `stageOut` and `Copy` as explicit state passing
over a world that answers every `bash -c` invocation.
-/

namespace Staging

/-! ## Configuration (viper) -/

/-- The viper store after `ReadInConfig`: a key is either absent or bound to a string. -/
abbrev Config := String → Option String

def GKFSHOSTFILE : String := "tools.gekkofs.hosts_file"
def GKFSDATADIR : String := "tools.gekkofs.data_dir"
def GKFSLDPRELOAD : String := "tools.gekkofs.ld_preload_file"
def GKFSMOUNTDIR : String := "tools.gekkofs.mount_dir"
def CLUSHCONFIG : String := "tools.clush.conf"

/-- The call `viper.GetString(key)`: the zero value (empty string) when the key is absent. -/
def GetString (cfg : Config) (key : String) : String :=
  match cfg key with
  | some v => v
  | none => ""

/-- The call `viper.Get(key)` as later rendered by the `%s` verb: a nil interface prints
as `%!s(<nil>)`. -/
def GetFmt (cfg : Config) (key : String) : String :=
  match cfg key with
  | some v => v
  | none => "%!s(<nil>)"

/-! ## `fmt.Sprintf` restricted to the `%s` verb -/

/-- Expansion of a format string: each `%s` consumes the next operand, a `%s` without
operand prints `%!s(MISSING)`, every other character is copied. The format strings of this
program hold no other verb, and every call passes as many operands as there are verbs. -/
def sprintfAux : List Char → List String → List Char
  | [], _ => []
  | [c], _ => [c]
  | c :: d :: rest, args =>
    if c = '%' ∧ d = 's' then
      match args with
      | a :: as => a.data ++ sprintfAux rest as
      | [] => "%!s(MISSING)".data ++ sprintfAux rest []
    else c :: sprintfAux (d :: rest) args

def Sprintf (format : String) (args : List String) : String :=
  String.mk (sprintfAux format.data args)

/-- The call `strings.HasPrefix(s, p)`: `s` begins with `p`; every string begins with the
empty string. -/
def HasPrefix (s p : String) : Bool :=
  p.data.isPrefixOf s.data

/-- The call `cCtx.Args().Get(n)`: the empty string when there is no such argument. -/
def ArgsGet (args : List String) (n : Nat) : String :=
  args.getD n ""

/-! ## The world: subprocesses and the working directory -/

/-- What one `bash -c` invocation reports back. `err` is the error of `cmd.Run` or
`cmd.CombinedOutput` (`none` for exit status zero). -/
structure CmdResult where
  err : Option String
  stdout : String
  stderr : String
  combined : String

/-- The call site that started a subprocess. -/
inductive CmdKind where
  | backup
  | sort
  | probe
  | launchIn
  | launchOut
  deriving DecidableEq, Repr

/-- One executed shell command: the call site, the text handed to `bash -c`, and the
error it ended with (`none` for success). -/
structure Exec where
  kind : CmdKind
  text : String
  err : Option String
  deriving DecidableEq, Repr

/-- The environment of one run: every answer may depend on the commands executed so far. -/
structure World where
  run : List String → String → CmdResult
  getwd : List String → Except String String

/-- Observable state of a run: executed commands, log lines (standard error) and
printed lines (standard output), oldest first. -/
structure St where
  trace : List Exec
  logs : List String
  out : List String

def St.init : St := ⟨[], [], []⟩

def St.texts (s : St) : List String := s.trace.map Exec.text

def St.log (s : St) (line : String) : St := { s with logs := s.logs ++ [line] }

def St.println (s : St) (line : String) : St := { s with out := s.out ++ [line] }

def St.exec (s : St) (k : CmdKind) (text : String) (err : Option String) : St :=
  { s with trace := s.trace ++ [⟨k, text, err⟩] }

def St.kinds (s : St) : List CmdKind := s.trace.map Exec.kind

/-- How a function ends: it returns (with an optional error), or `log.Fatal` prints
the message and exits the process with status 1. -/
inductive Res where
  | ret (err : Option String) (s : St)
  | fatal (msg : String) (s : St)

def Res.state : Res → St
  | .ret _ s => s
  | .fatal _ s => s

def Res.isFatal : Res → Bool
  | .ret _ _ => false
  | .fatal _ _ => true

/-! ## Command lines -/

def backupCmd (hostsFile : String) : String :=
  Sprintf "cp %s ./gkfs_hosts.txt.bak" [hostsFile]

def sortCmd : String := "sort -k 1 -V ./gkfs_hosts.txt.bak -o ./gkfs_hosts.txt"

def probeFormat : String :=
  "rm -f %s/gkfs_hosts.txt.pid* 2>/dev/null ;nodes=$(srun hostname|nodeset -f);clush --conf=%s -b -w $nodes 'if [ -f %s ] && [ -f /etc/hostname ] && command -v lsof > /dev/null; then cat %s | grep $(cat /etc/hostname) | while read line; do host=$(echo $line | awk '\\''\x7bprint $1\x7d'\\''); url=$(echo $line | awk '\\''\x7bprint $2\x7d'\\''); port=$(echo $url | awk -F: '\\''\x7bprint $3\x7d'\\''); pid=$(lsof -t -i :$port 2>/dev/null | head -n 1); echo \"$host: $url:$\x7bpid:-PID not found\x7d\" >> %s/gkfs_hosts.txt.pid.bak; done; sort -k 1 -V %s/gkfs_hosts.txt.pid.bak -o %s/gkfs_hosts.txt.pid; else echo \"Required gkfs_hosts relation files or some commands are missing\"; fi 1>&2'"

def probeCmd (curDir clushFile hostsFile : String) : String :=
  Sprintf probeFormat [curDir, clushFile, hostsFile, hostsFile, curDir, curDir, curDir]

def stageInFormat : String :=
  "mpirun -host `srun hostname|nodeset -f|nodeset -e | tr \" \" \",\"` -env LD_PRELOAD %s -env HOST_SIZE `srun hostname|nodeset -f|nodeset -c` -ppn 1 %s/stage-in %s %s %s/gkfs_hosts.txt.pid  %s "

def stageOutFormat : String :=
  "mpirun -host `srun hostname|nodeset -f|nodeset -e | tr \" \" \",\"` -env LD_PRELOAD %s -env HOST_SIZE `srun hostname|nodeset -f|nodeset -c` -ppn 1 %s/stage-out %s %s %s/gkfs_hosts.txt.pid  %s"

def stageInCmd (ldPreload workDir arg0 arg1 dataDir : String) : String :=
  Sprintf stageInFormat [ldPreload, workDir, arg0, arg1, workDir, dataDir]

def stageOutCmd (ldPreload workDir arg0 arg1 dataDir : String) : String :=
  Sprintf stageOutFormat [ldPreload, workDir, arg0, arg1, workDir, dataDir]

/-! ## The functions of `main.go` -/

/-- Lines 37 to 40: a failed backup copy is logged, nothing else happens. -/
def logBackupFailure (s : St) (r : CmdResult) : St :=
  match r.err with
  | some e => (s.log ("execute a command error " ++ e)).log ("err:  " ++ r.combined)
  | none => s

def GenerateHostFile (cfg : Config) (w : World) (s0 : St) : Res :=
  let s1 := s0.log "processing gekkofs hosts file..."
  let hostsFile := GetString cfg GKFSHOSTFILE
  let cpText := backupCmd hostsFile
  let r1 := w.run s1.texts cpText
  let s2 := s1.exec .backup cpText r1.err
  let s3 := logBackupFailure s2 r1
  match w.getwd s3.texts with
  | .error e => .ret (some e) s3
  | .ok curDir =>
    let r2 := w.run s3.texts sortCmd
    let s4 := s3.exec .sort sortCmd r2.err
    match r2.err with
    | some e => .fatal ("execute a command error" ++ e) (s4.log sortCmd)
    | none =>
      let clushFile := GetString cfg CLUSHCONFIG
      let probeText := probeCmd curDir clushFile hostsFile
      let s5 := s4.log probeText
      let r3 := w.run s5.texts probeText
      let s6 := s5.exec .probe probeText r3.err
      match r3.err with
      | some e =>
        .fatal ("err: " ++ (r2.stderr ++ r3.stderr))
          ((s6.log ("execute a command error " ++ e)).log probeText)
      | none => .ret none s6

def stageIn (cfg : Config) (w : World) (args : List String) (s0 : St) : Res :=
  let dataDir := GetFmt cfg GKFSDATADIR
  let ldPreload := GetFmt cfg GKFSLDPRELOAD
  match w.getwd s0.texts with
  | .error e => .ret (some e) s0
  | .ok workDir =>
    let text := stageInCmd ldPreload workDir (ArgsGet args 0) (ArgsGet args 1) dataDir
    let s1 := s0.println text
    let r := w.run s1.texts text
    let s2 := s1.exec .launchIn text r.err
    match r.err with
    | some e => .fatal ("execute error " ++ e ++ " " ++ r.stderr) (s2.println text)
    | none => .ret none (s2.println r.stdout)

def stageOut (cfg : Config) (w : World) (args : List String) (s0 : St) : Res :=
  let dataDir := GetFmt cfg GKFSDATADIR
  let ldPreload := GetFmt cfg GKFSLDPRELOAD
  match w.getwd s0.texts with
  | .error e => .ret (some e) s0
  | .ok workDir =>
    let text := stageOutCmd ldPreload workDir (ArgsGet args 0) (ArgsGet args 1) dataDir
    let s1 := s0.println text
    let r := w.run s1.texts text
    let s2 := s1.exec .launchOut text r.err
    match r.err with
    | some e => .fatal ("execute error " ++ e ++ " " ++ r.stderr) s2
    | none => .ret none (s2.println r.stdout)

def mountErrorMsg : String :=
  "// The source and destination paths must include the GekkoFS mount path,\n                    // or please check the configuration for the correct mount path."

/-- The three ways the conditional of `Copy` (lines 196 to 204) can go. -/
inductive Branch where
  | stageIn
  | stageOut
  | fatal
  deriving DecidableEq, Repr

/-- The conditional of `Copy`: the outer test on either argument, the inner test on the
second argument. -/
def copyBranch (arg1 arg2 mount : String) : Branch :=
  if HasPrefix arg1 mount || HasPrefix arg2 mount then
    if HasPrefix arg2 mount then .stageIn else .stageOut
  else .fatal

def Copy (cfg : Config) (w : World) (args : List String) (s0 : St) : Res :=
  match GenerateHostFile cfg w s0 with
  | .fatal msg s => .fatal msg s
  | .ret (some _) s => .fatal "generate hostfile error" s
  | .ret none s =>
    let arg1 := ArgsGet args 0
    let arg2 := ArgsGet args 1
    let mount := GetString cfg GKFSMOUNTDIR
    match copyBranch arg1 arg2 mount with
    | .stageIn => stageIn cfg w args s
    | .stageOut => stageOut cfg w args s
    | .fatal => .fatal mountErrorMsg s

/-- A launch of the data mover: a command started by `stageIn` or `stageOut`. -/
def Exec.isLaunch (e : Exec) : Bool :=
  match e.kind with
  | .launchIn => true
  | .launchOut => true
  | _ => false

/-! ## Concrete environments used at the examples -/

/-- A world in which every command succeeds silently and the working directory is `/work`. -/
def okWorld : World :=
  ⟨fun _ _ => ⟨none, "", "", ""⟩, fun _ => .ok "/work"⟩

/-- A configuration that binds all five keys, with the given mount root. -/
def cfgMount (mount : String) : Config := fun key =>
  if key = GKFSHOSTFILE then some "/etc/gkfs/hosts"
  else if key = GKFSDATADIR then some "/data/gkfs"
  else if key = GKFSLDPRELOAD then some "/opt/gkfs/libgkfs_intercept.so"
  else if key = GKFSMOUNTDIR then some mount
  else if key = CLUSHCONFIG then some "/etc/clustershell/clush.conf"
  else none

/-- A configuration file with none of the keys. -/
def cfgEmpty : Config := fun _ => none

/-- A world in which the backup copy fails and every other command succeeds (a backup
artifact of an earlier run is still in the working directory). -/
def cpFailWorld : World :=
  ⟨fun hist _ => match hist with
      | [] => ⟨some "exit status 1", "", "", "cp: cannot stat\n"⟩
      | _ => ⟨none, "", "", ""⟩,
    fun _ => .ok "/work"⟩

/-- Words of a line, separated by runs of blanks and tabs: the fields of `awk`, and the
words the shell makes of a command line without quoting. -/
def wordsAux : List Char → List Char → List (List Char)
  | cur, [] => if cur = [] then [] else [cur.reverse]
  | cur, c :: cs =>
    if c = ' ' ∨ c = '\t' then
      (if cur = [] then wordsAux [] cs else cur.reverse :: wordsAux [] cs)
    else wordsAux (c :: cur) cs

def words (s : String) : List String := (wordsAux [] s.data).map String.mk

/-- A character the shell takes literally inside a word: a letter, a digit or one of
`/ . _ - : , + @ =`. -/
def plainChar (c : Char) : Bool :=
  c.isAlphanum || c = '/' || c = '.' || c = '_' || c = '-' || c = ':' || c = ',' || c = '+' ||
    c = '@' || c = '='

/-- A non-empty string of such characters: interpolated without quoting into a command
line, it is exactly one word for the shell. -/
def plainWord (s : String) : Bool :=
  !s.data.isEmpty && s.data.all plainChar

/-- The launcher and its host set, up to the name of the preload variable. -/
def launchHead : String :=
  "mpirun -host `srun hostname|nodeset -f|nodeset -e | tr \" \" \",\"` -env LD_PRELOAD "

/-- The host-count variable of the environment. -/
def launchHostSize : String :=
  " -env HOST_SIZE `srun hostname|nodeset -f|nodeset -c` "

/-- The launcher part of the command line up to the processes-per-node flag: host set and
environment. -/
def launchFlags (ldPreload : String) : String :=
  launchHead ++ ldPreload ++ launchHostSize

/-- The launch specification in the words of the specification: the launcher flags, one
process per node, the executable in the working directory, then the four positional
arguments: source, destination, topology map, data directory. -/
def specLaunchCmd (exe ldPreload workDir src dst dataDir : String) : String :=
  launchFlags ldPreload ++ "-ppn 1 " ++ (workDir ++ "/" ++ exe) ++ " " ++ src ++ " " ++ dst ++
    " " ++ (workDir ++ "/gkfs_hosts.txt.pid") ++ "  " ++ dataDir

/-- The words of a command line from the processes-per-node flag on. -/
def fromPpn : List String → List String
  | [] => []
  | x :: xs => if x = "-ppn" then x :: xs else fromPpn xs

/-- The command line `stageIn` builds in working directory `workDir`. -/
def stageInText (cfg : Config) (workDir : String) (args : List String) : String :=
  stageInCmd (GetFmt cfg GKFSLDPRELOAD) workDir (ArgsGet args 0) (ArgsGet args 1)
    (GetFmt cfg GKFSDATADIR)

/-- The command line `stageOut` builds in working directory `workDir`. -/
def stageOutText (cfg : Config) (workDir : String) (args : List String) : String :=
  stageOutCmd (GetFmt cfg GKFSLDPRELOAD) workDir (ArgsGet args 0) (ArgsGet args 1)
    (GetFmt cfg GKFSDATADIR)

/-- A world in which the launcher fails with the given standard output and standard error:
the fourth command of a run is the launch. -/
def launchFailWorld (out errText : String) : World :=
  ⟨fun hist _ => if hist.length = 3 then ⟨some "exit status 1", out, errText, out ++ errText⟩
      else ⟨none, "", "", ""⟩,
    fun _ => .ok "/work"⟩

/-! ## The per-node probe: the script `GenerateHostFile` hands to `clush`

On every allocated node the script tests its prerequisites, and if they hold runs
`cat hostsFile | grep $(cat /etc/hostname) | while read line; do ... done`: for every
selected line it takes the first two blank-separated fields (`awk` print of field 1 and 2),
the third colon-separated field of the second one (`awk -F:`) as the port, asks `lsof` for
the process listening on it, and appends `host: url:pid` to `gkfs_hosts.txt.pid.bak`. -/

/-- The selection `grep pattern`: the line contains the pattern somewhere (a host name made
of letters, digits and dashes has no regular-expression operator in it). -/
def grepMatch (pattern : List Char) : List Char → Bool
  | [] => pattern.isPrefixOf []
  | c :: cs => pattern.isPrefixOf (c :: cs) || grepMatch pattern cs

/-- Fields separated by one character, empty fields kept (`awk -F:`). -/
def splitSep (sep : Char) : List Char → List Char → List (List Char)
  | cur, [] => [cur.reverse]
  | cur, c :: cs =>
    if c = sep then cur.reverse :: splitSep sep [] cs else splitSep sep (c :: cur) cs

/-- One allocated node as the script sees it. -/
structure Node where
  /-- Content of `/etc/hostname`. -/
  hostname : String
  /-- The node answers and finds the host file, `/etc/hostname` and `lsof`. -/
  ready : Bool
  /-- Output of `lsof -t -i :port 2>/dev/null | head -n 1`; empty when nothing listens. -/
  lsof : String → String

/-- One line of the topology artifact, `node: endpoint:pid`. -/
structure HostRecord where
  node : String
  endpoint : String
  pid : String
  deriving DecidableEq, Repr

def HostRecord.render (r : HostRecord) : String :=
  r.node ++ ": " ++ r.endpoint ++ ":" ++ r.pid

/-- The body of the `while read line` loop on node `n`. -/
def probeLine (n : Node) (line : String) : HostRecord :=
  let host := (words line).getD 0 ""
  let url := (words line).getD 1 ""
  let port := String.mk ((splitSep ':' [] url.data).getD 2 [])
  let pid := n.lsof port
  ⟨host, url, if pid = "" then "PID not found" else pid⟩

/-- The records one node appends: one for every host-list line its `grep` selects. -/
def probeNode (hostLines : List String) (n : Node) : List HostRecord :=
  if n.ready then
    (hostLines.filter (fun l => grepMatch n.hostname.data l.data)).map (probeLine n)
  else []

/-- The records accumulated in `gkfs_hosts.txt.pid.bak` by the fan-out. -/
def probeAll (hostLines : List String) (nodes : List Node) : List HostRecord :=
  (nodes.map (probeNode hostLines)).flatten

/-- The node name of a host-list line: its first field. -/
def nodeName (line : String) : String := (words line).getD 0 ""

/-- The host list and the allocation of the example: two nodes, both answering, the
daemon being process 4242 on port 6000 of each. -/
def hostLines2 : List String := ["node1 gkfs://node1:6000", "node10 gkfs://node10:6000"]

def nodes2 : List Node :=
  [⟨"node1", true, fun port => if port = "6000" then "4242" else ""⟩,
   ⟨"node10", true, fun port => if port = "6000" then "4242" else ""⟩]

/-! ## The version sort (`sort -k 1 -V`) -/

/-- Modelled from the spec: the external `sort` utility, which the sources only invoke (with
`-k 1 -V`, a key that runs from the first field to the end of the line) and whose
version-aware comparison the specification describes as "numeric suffixes compare
numerically". A line is cut into tokens: every maximal run of digits is one token holding
its numeric value, every other character is a token of its own. -/
def verTokensAux : Option Nat → List Char → List (Nat × Nat)
  | none, [] => []
  | some n, [] => [(0, n)]
  | acc, c :: cs =>
    if c.isDigit then verTokensAux (some (acc.getD 0 * 10 + (c.toNat - 48))) cs
    else
      match acc with
      | some n => (0, n) :: (1, c.toNat) :: verTokensAux none cs
      | none => (1, c.toNat) :: verTokensAux none cs

/-- Modelled from the spec: the order of two tokens of the version comparison described for
the external `sort -V`; a number comes before a character, numbers compare by value,
characters by code. -/
def tokLt (a b : Nat × Nat) : Bool :=
  decide (a.1 < b.1) || (decide (a.1 = b.1) && decide (a.2 < b.2))

/-- Modelled from the spec: the version comparison of the external `sort -V` on token
lists, token by token, a proper prefix first. -/
def lexLe : List (Nat × Nat) → List (Nat × Nat) → Bool
  | [], _ => true
  | _ :: _, [] => false
  | a :: as, b :: bs => if tokLt a b then true else if tokLt b a then false else lexLe as bs

/-- Modelled from the spec: the version-aware order of the external `sort -k 1 -V` on two
lines. -/
def VersionLe (a b : String) : Prop :=
  lexLe (verTokensAux none a.data) (verTokensAux none b.data) = true

instance : DecidableRel VersionLe := fun a b =>
  inferInstanceAs (Decidable (lexLe (verTokensAux none a.data) (verTokensAux none b.data) = true))

/-- Modelled from the spec: the effect of the external `sort -k 1 -V file -o out` on the
lines of the file. -/
def versionSort (lines : List String) : List String :=
  lines.insertionSort VersionLe

/-- Numeric value of a run of digits, continuing from `acc`. -/
def digitsVal : Nat → List Char → Nat
  | acc, [] => acc
  | acc, c :: cs => digitsVal (acc * 10 + (c.toNat - 48)) cs

/-! ### The literal pieces of the probe command line, between its seven operands -/

/-- Probe command line: removal of the stale partial results. -/
def probeText0 : String :=
  "rm -f "

/-- Probe command line: discovery of the allocated nodes and start of the fan-out. -/
def probeText1 : String :=
  "/gkfs_hosts.txt.pid* 2>/dev/null ;nodes=$(srun hostname|nodeset -f);clush --conf="

/-- Probe command line: start of the per-node script: test for the host file. -/
def probeText2 : String :=
  " -b -w $nodes 'if [ -f "

/-- Probe command line: remaining prerequisites, then reading of the host file. -/
def probeText3 : String :=
  " ] && [ -f /etc/hostname ] && command -v lsof > /dev/null; then cat "

/-- Probe command line: selection of the lines by host name and the loop writing one record for each. -/
def probeText4 : String :=
  " | grep $(cat /etc/hostname) | while read line; do host=$(echo $line | awk '\\''\x7bprint $1\x7d'\\''); url=$(echo $line | awk '\\''\x7bprint $2\x7d'\\''); port=$(echo $url | awk -F: '\\''\x7bprint $3\x7d'\\''); pid=$(lsof -t -i :$port 2>/dev/null | head -n 1); echo \"$host: $url:$\x7bpid:-PID not found\x7d\" >> "

/-- Probe command line: end of the loop. -/
def probeText5 : String :=
  "/gkfs_hosts.txt.pid.bak; done; "

/-- Probe command line: output option of the final sort. -/
def probeText6 : String :=
  "/gkfs_hosts.txt.pid.bak -o "

/-- Probe command line: diagnostic for a node without the prerequisites. -/
def probeText7 : String :=
  "/gkfs_hosts.txt.pid; else echo \"Required gkfs_hosts relation files or some commands are missing\"; fi 1>&2'"

/-- Probe command line: the version sort of the accumulated records, applied to
`gkfs_hosts.txt.pid.bak` in the working directory. -/
def probeSortText : String := "sort -k 1 -V "

/-! ## Bookkeeping lemmas -/

theorem texts_log (s : St) (l : String) : (s.log l).texts = s.texts := rfl
theorem texts_println (s : St) (l : String) : (s.println l).texts = s.texts := rfl
theorem trace_log (s : St) (l : String) : (s.log l).trace = s.trace := rfl
theorem trace_println (s : St) (l : String) : (s.println l).trace = s.trace := rfl
theorem trace_exec (s : St) (k : CmdKind) (t : String) (e : Option String) :
    (s.exec k t e).trace = s.trace ++ [⟨k, t, e⟩] := rfl
theorem texts_exec (s : St) (k : CmdKind) (t : String) (e : Option String) :
    (s.exec k t e).texts = s.texts ++ [t] := by
  simp [St.texts, St.exec]
theorem trace_logBackupFailure (s : St) (r : CmdResult) :
    (logBackupFailure s r).trace = s.trace := by
  unfold logBackupFailure
  split <;> rfl
theorem texts_logBackupFailure (s : St) (r : CmdResult) :
    (logBackupFailure s r).texts = s.texts := by
  simp [St.texts, trace_logBackupFailure]

/-- The four ways `GenerateHostFile` can end, with the commands each one has executed. -/
theorem GenerateHostFile_cases (cfg : Config) (w : World) (s0 : St) :
    (∃ e s, GenerateHostFile cfg w s0 = .ret (some e) s ∧
        s.trace = s0.trace ++ [⟨.backup, backupCmd (GetString cfg GKFSHOSTFILE),
          (w.run s0.texts (backupCmd (GetString cfg GKFSHOSTFILE))).err⟩]) ∨
    (∃ m s e, GenerateHostFile cfg w s0 = .fatal m s ∧
        s.trace = s0.trace ++ [⟨.backup, backupCmd (GetString cfg GKFSHOSTFILE),
          (w.run s0.texts (backupCmd (GetString cfg GKFSHOSTFILE))).err⟩,
          ⟨.sort, sortCmd, some e⟩]) ∨
    (∃ m s p e, GenerateHostFile cfg w s0 = .fatal m s ∧
        s.trace = s0.trace ++ [⟨.backup, backupCmd (GetString cfg GKFSHOSTFILE),
          (w.run s0.texts (backupCmd (GetString cfg GKFSHOSTFILE))).err⟩,
          ⟨.sort, sortCmd, none⟩, ⟨.probe, p, some e⟩]) ∨
    (∃ s p, GenerateHostFile cfg w s0 = .ret none s ∧
        s.trace = s0.trace ++ [⟨.backup, backupCmd (GetString cfg GKFSHOSTFILE),
          (w.run s0.texts (backupCmd (GetString cfg GKFSHOSTFILE))).err⟩,
          ⟨.sort, sortCmd, none⟩, ⟨.probe, p, none⟩]) := by
  unfold GenerateHostFile
  simp only [texts_log, texts_exec, texts_logBackupFailure]
  split
  · rename_i e _
    exact Or.inl ⟨e, _, rfl, by simp [trace_log, trace_exec, trace_logBackupFailure, texts_log]⟩
  · rename_i curDir _
    split
    · rename_i e h2
      refine Or.inr (Or.inl ⟨_, _, e, rfl, ?_⟩)
      simp [trace_log, trace_exec, trace_logBackupFailure, texts_log, h2]
    · rename_i h2
      split
      · rename_i e h3
        refine Or.inr (Or.inr (Or.inl ⟨_, _,
          probeCmd curDir (GetString cfg CLUSHCONFIG) (GetString cfg GKFSHOSTFILE), e, rfl, ?_⟩))
        simp [trace_log, trace_exec, trace_logBackupFailure, h2]
        simpa using h3
      · rename_i h3
        refine Or.inr (Or.inr (Or.inr ⟨_,
          probeCmd curDir (GetString cfg CLUSHCONFIG) (GetString cfg GKFSHOSTFILE), rfl, ?_⟩))
        simp [trace_log, trace_exec, trace_logBackupFailure, h2]
        simpa using h3

theorem stageIn_trace (cfg : Config) (w : World) (args : List String) (s : St) :
    (stageIn cfg w args s).state.trace = s.trace ∨
    ∃ t e, (stageIn cfg w args s).state.trace = s.trace ++ [⟨.launchIn, t, e⟩] := by
  unfold stageIn
  simp only []
  split
  · exact Or.inl rfl
  · split <;> exact Or.inr ⟨_, _, rfl⟩

theorem stageOut_trace (cfg : Config) (w : World) (args : List String) (s : St) :
    (stageOut cfg w args s).state.trace = s.trace ∨
    ∃ t e, (stageOut cfg w args s).state.trace = s.trace ++ [⟨.launchOut, t, e⟩] := by
  unfold stageOut
  simp only []
  split
  · exact Or.inl rfl
  · split <;> exact Or.inr ⟨_, _, rfl⟩

theorem Copy_of_fatal (cfg : Config) (w : World) (args : List String) (s0 s : St) (m : String)
    (h : GenerateHostFile cfg w s0 = .fatal m s) : Copy cfg w args s0 = .fatal m s := by
  simp [Copy, h]

theorem Copy_of_error (cfg : Config) (w : World) (args : List String) (s0 s : St) (e : String)
    (h : GenerateHostFile cfg w s0 = .ret (some e) s) :
    Copy cfg w args s0 = .fatal "generate hostfile error" s := by
  simp [Copy, h]

theorem Copy_of_ok (cfg : Config) (w : World) (args : List String) (s0 s : St)
    (h : GenerateHostFile cfg w s0 = .ret none s) :
    Copy cfg w args s0 =
      match copyBranch (ArgsGet args 0) (ArgsGet args 1) (GetString cfg GKFSMOUNTDIR) with
      | .stageIn => stageIn cfg w args s
      | .stageOut => stageOut cfg w args s
      | .fatal => .fatal mountErrorMsg s := by
  simp [Copy, h]

theorem copyBranch_stageIn (a b m : String) :
    copyBranch a b m = .stageIn ↔ HasPrefix b m = true := by
  unfold copyBranch
  cases HasPrefix a m <;> cases HasPrefix b m <;> simp

theorem copyBranch_stageOut (a b m : String) :
    copyBranch a b m = .stageOut ↔ (HasPrefix a m = true ∧ HasPrefix b m = false) := by
  unfold copyBranch
  cases HasPrefix a m <;> cases HasPrefix b m <;> simp

theorem copyBranch_fatal (a b m : String) :
    copyBranch a b m = .fatal ↔ (HasPrefix a m = false ∧ HasPrefix b m = false) := by
  unfold copyBranch
  cases HasPrefix a m <;> cases HasPrefix b m <;> simp

theorem HasPrefix_empty (s : String) : HasPrefix s "" = true := by
  simp [HasPrefix]

/-- A run of `Copy` that fails in discovery or classification is fatal and its trace holds
no launch. -/
theorem Copy_failure_shape (cfg : Config) (w : World) (args : List String)
    (h : (∃ x ∈ (Copy cfg w args St.init).state.trace, x.kind = .sort ∧ x.err ≠ none) ∨
      (∃ x ∈ (Copy cfg w args St.init).state.trace, x.kind = .probe ∧ x.err ≠ none) ∨
      copyBranch (ArgsGet args 0) (ArgsGet args 1) (GetString cfg GKFSMOUNTDIR) = .fatal) :
    (Copy cfg w args St.init).isFatal = true ∧
      ∀ x ∈ (Copy cfg w args St.init).state.trace, x.isLaunch = false := by
  rcases GenerateHostFile_cases cfg w St.init with
    ⟨e, s, hG, ht⟩ | ⟨m, s, e, hG, ht⟩ | ⟨m, s, p, e, hG, ht⟩ | ⟨s, p, hG, ht⟩
  · rw [Copy_of_error cfg w args _ s e hG]
    simp [Res.isFatal, Res.state, ht, St.init, Exec.isLaunch]
  · rw [Copy_of_fatal cfg w args _ s m hG]
    simp [Res.isFatal, Res.state, ht, St.init, Exec.isLaunch]
  · rw [Copy_of_fatal cfg w args _ s m hG]
    simp [Res.isFatal, Res.state, ht, St.init, Exec.isLaunch]
  · rw [Copy_of_ok cfg w args _ s hG] at h ⊢
    cases hb : copyBranch (ArgsGet args 0) (ArgsGet args 1) (GetString cfg GKFSMOUNTDIR)
    · exfalso
      rw [hb] at h
      simp only [] at h
      rcases stageIn_trace cfg w args s with h1 | ⟨t, e, h1⟩ <;>
        simp [h1, ht, St.init] at h
    · exfalso
      rw [hb] at h
      simp only [] at h
      rcases stageOut_trace cfg w args s with h1 | ⟨t, e, h1⟩ <;>
        simp [h1, ht, St.init] at h
    · simp [Res.isFatal, Res.state, ht, St.init, Exec.isLaunch]

/-! ## Claims about the control flow of `Copy` -/

/-- C3: in every run of `Copy`, if the host-list sort command was executed and failed, or the
probe fan-out command was executed and failed, or the classification of the two paths fails,
then the run ends in a fatal error and no launch command (stage-in or stage-out) occurs
anywhere in the sequence of executed commands. -/
theorem Copy_failure_never_launches (cfg : Config) (w : World) (args : List String)
    (h : (∃ x ∈ (Copy cfg w args St.init).state.trace, x.kind = .sort ∧ x.err ≠ none) ∨
      (∃ x ∈ (Copy cfg w args St.init).state.trace, x.kind = .probe ∧ x.err ≠ none) ∨
      copyBranch (ArgsGet args 0) (ArgsGet args 1) (GetString cfg GKFSMOUNTDIR) = .fatal) :
    (Copy cfg w args St.init).isFatal = true ∧
      ∀ x ∈ (Copy cfg w args St.init).state.trace, x.isLaunch = false :=
  Copy_failure_shape cfg w args h

/-- C3 at the witness of the claim: two paths outside the mount root `/mnt/gkfs`. -/
theorem Copy_failure_never_launches_witness :
    (Copy (cfgMount "/mnt/gkfs") okWorld ["/other/a", "/other/b"] St.init).isFatal = true ∧
      ∀ x ∈ (Copy (cfgMount "/mnt/gkfs") okWorld ["/other/a", "/other/b"] St.init).state.trace,
        x.isLaunch = false :=
  Copy_failure_never_launches (cfgMount "/mnt/gkfs") okWorld ["/other/a", "/other/b"]
    (Or.inr (Or.inr (by decide)))

/-- C1 (counterexample): with both paths under the mount root `/mnt/gkfs` the run is not
fatal; `Copy` takes the stage-in branch and launches the stage-in command, although the
source path has the mount root as a prefix. -/
theorem Copy_both_under_mount_stages_in :
    HasPrefix "/mnt/gkfs/a" "/mnt/gkfs" = true ∧
    HasPrefix "/mnt/gkfs/b" "/mnt/gkfs" = true ∧
    copyBranch "/mnt/gkfs/a" "/mnt/gkfs/b" "/mnt/gkfs" = .stageIn ∧
    (Copy (cfgMount "/mnt/gkfs") okWorld ["/mnt/gkfs/a", "/mnt/gkfs/b"] St.init).isFatal = false ∧
    (Copy (cfgMount "/mnt/gkfs") okWorld ["/mnt/gkfs/a", "/mnt/gkfs/b"] St.init).state.kinds =
      [.backup, .sort, .probe, .launchIn] := by
  refine ⟨by decide, by decide, by decide, rfl, rfl⟩

/-- C1 (amended): once discovery has succeeded, `Copy` takes the stage-in branch exactly when
the destination has the mount root as a prefix (whatever the source is), the stage-out branch
exactly when the source has it and the destination does not, and ends fatally, in the state
discovery left and so without calling `stageIn` or `stageOut`, exactly when neither path
has it. -/
theorem Copy_direction (cfg : Config) (w : World) (args : List String) (s0 s : St)
    (h : GenerateHostFile cfg w s0 = .ret none s) :
    (copyBranch (ArgsGet args 0) (ArgsGet args 1) (GetString cfg GKFSMOUNTDIR) = .stageIn ↔
      HasPrefix (ArgsGet args 1) (GetString cfg GKFSMOUNTDIR) = true) ∧
    (copyBranch (ArgsGet args 0) (ArgsGet args 1) (GetString cfg GKFSMOUNTDIR) = .stageOut ↔
      (HasPrefix (ArgsGet args 0) (GetString cfg GKFSMOUNTDIR) = true ∧
        HasPrefix (ArgsGet args 1) (GetString cfg GKFSMOUNTDIR) = false)) ∧
    (copyBranch (ArgsGet args 0) (ArgsGet args 1) (GetString cfg GKFSMOUNTDIR) = .fatal ↔
      (HasPrefix (ArgsGet args 0) (GetString cfg GKFSMOUNTDIR) = false ∧
        HasPrefix (ArgsGet args 1) (GetString cfg GKFSMOUNTDIR) = false)) ∧
    (copyBranch (ArgsGet args 0) (ArgsGet args 1) (GetString cfg GKFSMOUNTDIR) = .stageIn →
      Copy cfg w args s0 = stageIn cfg w args s) ∧
    (copyBranch (ArgsGet args 0) (ArgsGet args 1) (GetString cfg GKFSMOUNTDIR) = .stageOut →
      Copy cfg w args s0 = stageOut cfg w args s) ∧
    (copyBranch (ArgsGet args 0) (ArgsGet args 1) (GetString cfg GKFSMOUNTDIR) = .fatal →
      Copy cfg w args s0 = .fatal mountErrorMsg s) := by
  refine ⟨copyBranch_stageIn _ _ _, copyBranch_stageOut _ _ _, copyBranch_fatal _ _ _, ?_, ?_, ?_⟩
  all_goals
    intro hb
    rw [Copy_of_ok cfg w args s0 s h, hb]

/-- C1 (amended) at the witness of the claim: `/global/fsA/data` to `/mnt/gkfs/out` with mount
root `/mnt/gkfs` is a stage-in. -/
theorem Copy_direction_witness :
    copyBranch "/global/fsA/data" "/mnt/gkfs/out" "/mnt/gkfs" = .stageIn ∧
    Copy (cfgMount "/mnt/gkfs") okWorld ["/global/fsA/data", "/mnt/gkfs/out"] St.init =
      stageIn (cfgMount "/mnt/gkfs") okWorld ["/global/fsA/data", "/mnt/gkfs/out"]
        (GenerateHostFile (cfgMount "/mnt/gkfs") okWorld St.init).state :=
  ⟨by decide,
    (Copy_direction (cfgMount "/mnt/gkfs") okWorld ["/global/fsA/data", "/mnt/gkfs/out"] St.init
      (GenerateHostFile (cfgMount "/mnt/gkfs") okWorld St.init).state rfl).2.2.2.1 (by decide)⟩

/-- C10: when the mount-directory key is absent (or bound to the empty string) the mount root
read by `Copy` is the empty string, and then for every source and destination the
classification selects stage-in: it never fails and never selects stage-out, so after a
successful discovery `Copy` runs `stageIn`. -/
theorem Copy_empty_mount_always_stage_in (cfg : Config) (w : World) (args : List String)
    (s0 : St) (hm : cfg GKFSMOUNTDIR = none ∨ cfg GKFSMOUNTDIR = some "") :
    GetString cfg GKFSMOUNTDIR = "" ∧
    (∀ src dst : String, copyBranch src dst (GetString cfg GKFSMOUNTDIR) = .stageIn) ∧
    (∀ s, GenerateHostFile cfg w s0 = .ret none s →
      Copy cfg w args s0 = stageIn cfg w args s) := by
  have h0 : GetString cfg GKFSMOUNTDIR = "" := by
    rcases hm with hm | hm <;> simp [GetString, hm]
  have h1 : ∀ src dst : String, copyBranch src dst (GetString cfg GKFSMOUNTDIR) = .stageIn := by
    intro src dst
    rw [h0]
    exact (copyBranch_stageIn src dst "").2 (HasPrefix_empty dst)
  refine ⟨h0, h1, ?_⟩
  intro s hs
  rw [Copy_of_ok cfg w args s0 s hs, h1]

/-- C10 at a configuration without any key and two paths unrelated to any mount. -/
theorem Copy_empty_mount_always_stage_in_witness :
    GetString cfgEmpty GKFSMOUNTDIR = "" ∧
    (∀ src dst : String, copyBranch src dst (GetString cfgEmpty GKFSMOUNTDIR) = .stageIn) ∧
    (∀ s, GenerateHostFile cfgEmpty okWorld St.init = .ret none s →
      Copy cfgEmpty okWorld ["/other/a", "/other/b"] St.init =
        stageIn cfgEmpty okWorld ["/other/a", "/other/b"] s) :=
  Copy_empty_mount_always_stage_in cfgEmpty okWorld ["/other/a", "/other/b"] St.init
    (Or.inl rfl)

theorem Copy_trace_head (cfg : Config) (w : World) (args : List String) :
    ∃ rest, (Copy cfg w args St.init).state.trace =
      ⟨.backup, backupCmd (GetString cfg GKFSHOSTFILE),
        (w.run [] (backupCmd (GetString cfg GKFSHOSTFILE))).err⟩ :: rest := by
  rcases GenerateHostFile_cases cfg w St.init with
    ⟨e, s, hG, ht⟩ | ⟨m, s, e, hG, ht⟩ | ⟨m, s, p, e, hG, ht⟩ | ⟨s, p, hG, ht⟩
  · rw [Copy_of_error cfg w args _ s e hG]
    exact ⟨_, by simpa [Res.state, St.init, St.texts] using ht⟩
  · rw [Copy_of_fatal cfg w args _ s m hG]
    exact ⟨_, by simpa [Res.state, St.init, St.texts] using ht⟩
  · rw [Copy_of_fatal cfg w args _ s m hG]
    exact ⟨_, by simpa [Res.state, St.init, St.texts] using ht⟩
  · rw [Copy_of_ok cfg w args _ s hG]
    have ht2 : s.trace = ⟨.backup, backupCmd (GetString cfg GKFSHOSTFILE),
        (w.run [] (backupCmd (GetString cfg GKFSHOSTFILE))).err⟩ ::
        [⟨.sort, sortCmd, none⟩, ⟨.probe, p, none⟩] := by
      simpa [St.init, St.texts] using ht
    cases copyBranch (ArgsGet args 0) (ArgsGet args 1) (GetString cfg GKFSMOUNTDIR)
    · rcases stageIn_trace cfg w args s with h1 | ⟨t, e, h1⟩
      · exact ⟨_, h1.trans ht2⟩
      · exact ⟨_, h1.trans (by rw [ht2]; rfl)⟩
    · rcases stageOut_trace cfg w args s with h1 | ⟨t, e, h1⟩
      · exact ⟨_, h1.trans ht2⟩
      · exact ⟨_, h1.trans (by rw [ht2]; rfl)⟩
    · exact ⟨_, ht2⟩

theorem GenerateHostFile_trace_head (cfg : Config) (w : World) :
    ∃ rest, (GenerateHostFile cfg w St.init).state.trace =
      ⟨.backup, backupCmd (GetString cfg GKFSHOSTFILE),
        (w.run [] (backupCmd (GetString cfg GKFSHOSTFILE))).err⟩ :: rest := by
  rcases GenerateHostFile_cases cfg w St.init with
    ⟨e, s, hG, ht⟩ | ⟨m, s, e, hG, ht⟩ | ⟨m, s, p, e, hG, ht⟩ | ⟨s, p, hG, ht⟩ <;>
  · rw [hG]
    exact ⟨_, by simpa [Res.state, St.init, St.texts] using ht⟩

/-- C4 (counterexample): for two paths outside the mount root `/mnt/gkfs`, in a world where
every command succeeds, `Copy` ends with the mount-path error only after the backup copy,
the sort and the probe fan-out have been executed: the sequence of commands is not empty. -/
theorem Copy_ambiguous_runs_discovery_first :
    copyBranch "/other/a" "/other/b" "/mnt/gkfs" = .fatal ∧
    (Copy (cfgMount "/mnt/gkfs") okWorld ["/other/a", "/other/b"] St.init).isFatal = true ∧
    (Copy (cfgMount "/mnt/gkfs") okWorld ["/other/a", "/other/b"] St.init).state.kinds =
      [.backup, .sort, .probe] ∧
    (Copy (cfgMount "/mnt/gkfs") okWorld ["/other/a", "/other/b"] St.init).state.trace ≠ [] := by
  refine ⟨by decide, rfl, rfl, ?_⟩
  intro h
  have hk : (Copy (cfgMount "/mnt/gkfs") okWorld ["/other/a", "/other/b"] St.init).state.kinds =
      [.backup, .sort, .probe] := rfl
  rw [St.kinds, h] at hk
  simp at hk

/-- C4 (amended): when neither path has the mount root as a prefix, every run of `Copy` is
fatal and starts no launch command, but the sequence of executed commands is never empty:
it always begins with the backup copy, and when discovery succeeds the mount-path error is
reported only after exactly the backup copy, the sort and the probe fan-out have run. -/
theorem Copy_ambiguous_after_discovery (cfg : Config) (w : World) (args : List String)
    (h : HasPrefix (ArgsGet args 0) (GetString cfg GKFSMOUNTDIR) = false ∧
      HasPrefix (ArgsGet args 1) (GetString cfg GKFSMOUNTDIR) = false) :
    (Copy cfg w args St.init).isFatal = true ∧
    (Copy cfg w args St.init).state.kinds.head? = some .backup ∧
    (∀ x ∈ (Copy cfg w args St.init).state.trace, x.isLaunch = false) ∧
    (∀ s, GenerateHostFile cfg w St.init = .ret none s →
      Copy cfg w args St.init = .fatal mountErrorMsg s ∧
        s.kinds = [.backup, .sort, .probe]) := by
  have hb := (copyBranch_fatal _ _ _).2 h
  have hf := Copy_failure_shape cfg w args (Or.inr (Or.inr hb))
  refine ⟨hf.1, ?_, hf.2, ?_⟩
  · obtain ⟨rest, hr⟩ := Copy_trace_head cfg w args
    simp [St.kinds, hr]
  · intro s hs
    refine ⟨by rw [Copy_of_ok cfg w args _ s hs, hb], ?_⟩
    rcases GenerateHostFile_cases cfg w St.init with
      ⟨e, s', hG, ht⟩ | ⟨m, s', e, hG, ht⟩ | ⟨m, s', p, e, hG, ht⟩ | ⟨s', p, hG, ht⟩
    · rw [hs] at hG; simp at hG
    · rw [hs] at hG; simp at hG
    · rw [hs] at hG; simp at hG
    · rw [hs] at hG
      simp only [Res.ret.injEq, true_and] at hG
      subst hG
      simp [St.kinds, ht, St.init]

/-- C4 (amended) at the two paths `/other/a`, `/other/b` outside the mount root `/mnt/gkfs`. -/
theorem Copy_ambiguous_after_discovery_witness :
    (Copy (cfgMount "/mnt/gkfs") okWorld ["/other/a", "/other/b"] St.init).isFatal = true ∧
    (Copy (cfgMount "/mnt/gkfs") okWorld ["/other/a", "/other/b"] St.init).state.kinds.head? =
      some .backup :=
  ⟨(Copy_ambiguous_after_discovery (cfgMount "/mnt/gkfs") okWorld ["/other/a", "/other/b"]
      ⟨by decide, by decide⟩).1,
    (Copy_ambiguous_after_discovery (cfgMount "/mnt/gkfs") okWorld ["/other/a", "/other/b"]
      ⟨by decide, by decide⟩).2.1⟩

/-- C5 (counterexample): with a configuration in which every key is absent, in a world where
the backup copy fails and the other commands succeed, `GenerateHostFile` returns without
error after running three commands, the first one being the backup copy with the host-file
path read as the empty string, and `Copy` goes on to launch stage-in. -/
theorem absent_keys_run_commands :
    (GenerateHostFile cfgEmpty cpFailWorld St.init).isFatal = false ∧
    (GenerateHostFile cfgEmpty cpFailWorld St.init).state.kinds = [.backup, .sort, .probe] ∧
    (GenerateHostFile cfgEmpty cpFailWorld St.init).state.texts.head? =
      some "cp  ./gkfs_hosts.txt.bak" ∧
    (Copy cfgEmpty cpFailWorld ["/a", "/b"] St.init).isFatal = false ∧
    (Copy cfgEmpty cpFailWorld ["/a", "/b"] St.init).state.kinds =
      [.backup, .sort, .probe, .launchIn] := by
  refine ⟨rfl, rfl, by decide, rfl, rfl⟩

/-- C5 (amended): no configuration key is checked for presence. An absent key is read as the
empty string by `viper.GetString` (host file, mount directory, cluster-shell configuration)
and is rendered as `%!s(<nil>)` where `viper.Get` feeds a `%s` verb (data directory, preload
library); and for every configuration both `GenerateHostFile` and `Copy` execute the backup
copy command as their first action, `cp  ./gkfs_hosts.txt.bak` when the host-file key is
absent. -/
theorem absent_key_is_not_checked (cfg : Config) (w : World) (args : List String) :
    (∀ key, cfg key = none → GetString cfg key = "" ∧ GetFmt cfg key = "%!s(<nil>)") ∧
    (GenerateHostFile cfg w St.init).state.texts.head? =
      some (backupCmd (GetString cfg GKFSHOSTFILE)) ∧
    (Copy cfg w args St.init).state.texts.head? =
      some (backupCmd (GetString cfg GKFSHOSTFILE)) ∧
    (cfg GKFSHOSTFILE = none →
      backupCmd (GetString cfg GKFSHOSTFILE) = "cp  ./gkfs_hosts.txt.bak") := by
  refine ⟨?_, ?_, ?_, ?_⟩
  · intro key hk
    simp [GetString, GetFmt, hk]
  · obtain ⟨rest, hr⟩ := GenerateHostFile_trace_head cfg w
    simp [St.texts, hr]
  · obtain ⟨rest, hr⟩ := Copy_trace_head cfg w args
    simp [St.texts, hr]
  · intro hk
    have : GetString cfg GKFSHOSTFILE = "" := by simp [GetString, hk]
    rw [this]
    decide

theorem texts_init : St.init.texts = [] := rfl

/-- C6 (counterexample): the backup copy of `/etc/gkfs/hosts` fails, the run continues, and the
next command is the fixed sort line whose only input operand is the backup artifact
`./gkfs_hosts.txt.bak`; the configured host file does not occur in it. -/
theorem sort_reads_backup_after_failed_copy :
    GetString (cfgMount "/mnt/gkfs") GKFSHOSTFILE = "/etc/gkfs/hosts" ∧
    (GenerateHostFile (cfgMount "/mnt/gkfs") cpFailWorld St.init).state.trace.map
        (fun x => (x.kind, x.err.isSome)) =
      [(.backup, true), (.sort, false), (.probe, false)] ∧
    (GenerateHostFile (cfgMount "/mnt/gkfs") cpFailWorld St.init).state.texts.get? 1 =
      some sortCmd ∧
    words sortCmd =
      ["sort", "-k", "1", "-V", "./gkfs_hosts.txt.bak", "-o", "./gkfs_hosts.txt"] ∧
    "/etc/gkfs/hosts" ∉ words sortCmd := by
  refine ⟨by decide, rfl, rfl, by decide, by decide⟩

/-- C6 (amended): when the command that copies the host file to the backup artifact fails,
the failure is only logged (two log lines) and `GenerateHostFile` continues: once the working
directory is read, the next command it executes is the sort, whose text does not depend on
the configured host file and whose input operand is the backup artifact
`./gkfs_hosts.txt.bak`, not the configured source host file. -/
theorem backup_failure_is_only_logged (cfg : Config) (w : World) (e curDir : String)
    (h1 : (w.run [] (backupCmd (GetString cfg GKFSHOSTFILE))).err = some e)
    (h2 : w.getwd [backupCmd (GetString cfg GKFSHOSTFILE)] = .ok curDir) :
    (GenerateHostFile cfg w St.init).state.logs.take 3 =
      ["processing gekkofs hosts file...", "execute a command error " ++ e,
        "err:  " ++ (w.run [] (backupCmd (GetString cfg GKFSHOSTFILE))).combined] ∧
    (GenerateHostFile cfg w St.init).state.trace.take 2 =
      [⟨.backup, backupCmd (GetString cfg GKFSHOSTFILE), some e⟩,
        ⟨.sort, sortCmd, (w.run [backupCmd (GetString cfg GKFSHOSTFILE)] sortCmd).err⟩] ∧
    words sortCmd =
      ["sort", "-k", "1", "-V", "./gkfs_hosts.txt.bak", "-o", "./gkfs_hosts.txt"] := by
  refine ⟨?_, ?_, by decide⟩
  · unfold GenerateHostFile
    simp only [texts_log, texts_exec, texts_logBackupFailure, texts_init, List.nil_append, h1, h2,
      logBackupFailure]
    split
    · rfl
    · split <;> rfl
  · unfold GenerateHostFile
    simp only [texts_log, texts_exec, texts_logBackupFailure, texts_init, List.nil_append, h1, h2,
      logBackupFailure]
    split
    · rfl
    · split <;> rfl

/-- C6 (amended) in a world where the backup copy fails and the rest succeeds. -/
theorem backup_failure_is_only_logged_witness :
    (GenerateHostFile (cfgMount "/mnt/gkfs") cpFailWorld St.init).state.logs.take 3 =
      ["processing gekkofs hosts file...", "execute a command error " ++ "exit status 1",
        "err:  " ++ (cpFailWorld.run []
          (backupCmd (GetString (cfgMount "/mnt/gkfs") GKFSHOSTFILE))).combined] :=
  (backup_failure_is_only_logged (cfgMount "/mnt/gkfs") cpFailWorld "exit status 1" "/work"
    rfl rfl).1

/-! ## The launch command line -/

theorem sprintfAux_lit (l : List Char) (h : '%' ∉ l) (rest : List Char) (args : List String) :
    sprintfAux (l ++ rest) args = l ++ sprintfAux rest args := by
  induction l with
  | nil => rfl
  | cons c l ih =>
    have hc : c ≠ '%' := fun e => h (by simp [e])
    have hl : '%' ∉ l := fun e => h (by simp [e])
    cases hr : l ++ rest with
    | nil =>
      have h1 : l = [] := (List.append_eq_nil.mp hr).1
      have h2 : rest = [] := (List.append_eq_nil.mp hr).2
      subst h1; subst h2
      simp [sprintfAux]
    | cons d r =>
      have := ih hl
      rw [hr] at this
      simp [sprintfAux, hr, hc, this]

theorem sprintfAux_verb (rest : List Char) (a : String) (as : List String) :
    sprintfAux ('%' :: 's' :: rest) (a :: as) = a.data ++ sprintfAux rest as := by
  simp [sprintfAux]

theorem sprintfAux_seg (l : List Char) (h : '%' ∉ l) (rest : List Char) (a : String)
    (as : List String) :
    sprintfAux (l ++ '%' :: 's' :: rest) (a :: as) = l ++ (a.data ++ sprintfAux rest as) := by
  rw [sprintfAux_lit l h, sprintfAux_verb]

theorem stageInFormat_data : stageInFormat.data =
    "mpirun -host `srun hostname|nodeset -f|nodeset -e | tr \" \" \",\"` -env LD_PRELOAD ".data ++
      '%' :: 's' :: ((" -env HOST_SIZE `srun hostname|nodeset -f|nodeset -c` ".data ++
        "-ppn 1 ".data) ++
      '%' :: 's' :: (("/".data ++ "stage-in".data ++ " ".data) ++ '%' :: 's' :: (" ".data ++
      '%' :: 's' :: (" ".data ++ '%' :: 's' :: (("/gkfs_hosts.txt.pid".data ++ "  ".data) ++
      '%' :: 's' :: (" ".data ++ [])))))) := by
  rfl

theorem stageOutFormat_data : stageOutFormat.data =
    "mpirun -host `srun hostname|nodeset -f|nodeset -e | tr \" \" \",\"` -env LD_PRELOAD ".data ++
      '%' :: 's' :: ((" -env HOST_SIZE `srun hostname|nodeset -f|nodeset -c` ".data ++
        "-ppn 1 ".data) ++
      '%' :: 's' :: (("/".data ++ "stage-out".data ++ " ".data) ++ '%' :: 's' :: (" ".data ++
      '%' :: 's' :: (" ".data ++ '%' :: 's' :: (("/gkfs_hosts.txt.pid".data ++ "  ".data) ++
      '%' :: 's' :: ([] ++ [])))))) := by
  rfl

theorem stageInCmd_eq (ld wd src dst data : String) :
    stageInCmd ld wd src dst data = specLaunchCmd "stage-in" ld wd src dst data ++ " " := by
  apply String.ext
  simp only [stageInCmd, Sprintf, stageInFormat_data, specLaunchCmd, launchFlags, launchHead,
    launchHostSize,
    String.data_append]
  rw [sprintfAux_seg _ (by decide), sprintfAux_seg _ (by decide), sprintfAux_seg _ (by decide),
    sprintfAux_seg _ (by decide), sprintfAux_seg _ (by decide), sprintfAux_seg _ (by decide),
    sprintfAux_lit _ (by decide)]
  simp only [sprintfAux, List.append_assoc, List.append_nil]

theorem stageOutCmd_eq (ld wd src dst data : String) :
    stageOutCmd ld wd src dst data = specLaunchCmd "stage-out" ld wd src dst data := by
  apply String.ext
  simp only [stageOutCmd, Sprintf, stageOutFormat_data, specLaunchCmd, launchFlags, launchHead,
    launchHostSize,
    String.data_append]
  rw [sprintfAux_seg _ (by decide), sprintfAux_seg _ (by decide), sprintfAux_seg _ (by decide),
    sprintfAux_seg _ (by decide), sprintfAux_seg _ (by decide), sprintfAux_seg _ (by decide),
    sprintfAux_lit _ (by decide)]
  simp only [sprintfAux, List.append_assoc, List.append_nil, List.nil_append]

theorem wordsAux_trailing_blank (cur l : List Char) :
    wordsAux cur (l ++ [' ']) = wordsAux cur l := by
  induction l generalizing cur with
  | nil =>
    by_cases h : cur = [] <;> simp [wordsAux, h]
  | cons c cs ih =>
    rw [List.cons_append, wordsAux, wordsAux, ih, ih]

theorem words_trailing_blank (s : String) : words (s ++ " ") = words s := by
  unfold words
  rw [String.data_append]
  exact congrArg _ (wordsAux_trailing_blank [] s.data)

theorem plainChar_not_blank (c : Char) (h : plainChar c = true) : ¬ (c = ' ' ∨ c = '\t') := by
  rintro (rfl | rfl) <;> revert h <;> decide

theorem wordsAux_blank_split (cur l rest : List Char) :
    wordsAux cur (l ++ ' ' :: rest) = wordsAux cur l ++ wordsAux [] rest := by
  induction l generalizing cur with
  | nil =>
    by_cases h : cur = [] <;> simp [wordsAux, h]
  | cons c cs ih =>
    rw [List.cons_append, wordsAux, wordsAux, ih, ih]
    by_cases hc : c = ' ' ∨ c = '\t'
    · by_cases h : cur = [] <;> simp [hc, h]
    · simp [hc]

theorem wordsAux_plain (cur w : List Char) (hw : ∀ c ∈ w, ¬ (c = ' ' ∨ c = '\t'))
    (hne : cur ≠ [] ∨ w ≠ []) : wordsAux cur w = [cur.reverse ++ w] := by
  induction w generalizing cur with
  | nil =>
    have hcur : cur ≠ [] := by
      rcases hne with h | h
      · exact h
      · exact absurd rfl h
    simp [wordsAux, hcur]
  | cons c cs ih =>
    have hc : ¬ (c = ' ' ∨ c = '\t') := hw c (by simp)
    rw [wordsAux, if_neg hc, ih (c :: cur) (fun x hx => hw x (by simp [hx])) (Or.inl (by simp))]
    simp

theorem plainWord_chars (s : String) (h : plainWord s = true) :
    s.data ≠ [] ∧ ∀ c ∈ s.data, ¬ (c = ' ' ∨ c = '\t') := by
  simp only [plainWord, Bool.and_eq_true, Bool.not_eq_true', List.isEmpty_eq_false,
    List.all_eq_true] at h
  refine ⟨?_, fun c hc => plainChar_not_blank c (h.2 c hc)⟩
  intro e
  simp [e] at h

theorem words_blank_append (a b : String) : words (a ++ " " ++ b) = words a ++ words b := by
  unfold words
  rw [String.data_append, String.data_append]
  have h : a.data ++ " ".data ++ b.data = a.data ++ ' ' :: b.data := by
    show a.data ++ [' '] ++ b.data = _
    simp
  rw [h, wordsAux_blank_split, List.map_append]

theorem words_plain (w : String) (hne : w.data ≠ [])
    (hw : ∀ c ∈ w.data, ¬ (c = ' ' ∨ c = '\t')) : words w = [w] := by
  unfold words
  rw [wordsAux_plain [] w.data hw (Or.inr hne)]
  simp

theorem words_empty : words "" = [] := by decide

/-- Words of the launch specification when the executable path and the four operands are
single words. -/
theorem specLaunchCmd_words (exe ld wd src dst data : String)
    (hexe : ∀ c ∈ exe.data, ¬ (c = ' ' ∨ c = '\t'))
    (hld : plainWord ld = true) (hwd : plainWord wd = true) (hsrc : plainWord src = true)
    (hdst : plainWord dst = true) (hdata : plainWord data = true) :
    words (specLaunchCmd exe ld wd src dst data) =
      words launchHead ++ [ld] ++ words launchHostSize ++
        ["-ppn", "1", wd ++ "/" ++ exe, src, dst, wd ++ "/gkfs_hosts.txt.pid", data] := by
  have e1 : specLaunchCmd exe ld wd src dst data =
      "mpirun -host `srun hostname|nodeset -f|nodeset -e | tr \" \" \",\"` -env LD_PRELOAD" ++
        " " ++ (ld ++ " " ++ ("-env HOST_SIZE `srun hostname|nodeset -f|nodeset -c`" ++ " " ++
        ("-ppn" ++ " " ++ ("1" ++ " " ++ ((wd ++ "/" ++ exe) ++ " " ++ (src ++ " " ++
        (dst ++ " " ++ ((wd ++ "/gkfs_hosts.txt.pid") ++ " " ++ ("" ++ " " ++ data))))))))) := by
    apply String.ext
    simp only [specLaunchCmd, launchFlags, launchHead, launchHostSize, String.data_append,
      List.append_assoc]
    rfl
  have hw1 := plainWord_chars wd hwd
  have hE : words (wd ++ "/" ++ exe) = [wd ++ "/" ++ exe] := by
    apply words_plain
    · simp [String.data_append, hw1.1]
    · intro c hc
      simp only [String.data_append, List.mem_append] at hc
      rcases hc with (hc | hc) | hc
      · exact hw1.2 c hc
      · have : c = '/' := by simpa using hc
        subst this
        decide
      · exact hexe c hc
  have hH : words (wd ++ "/gkfs_hosts.txt.pid") = [wd ++ "/gkfs_hosts.txt.pid"] := by
    apply words_plain
    · simp [String.data_append, hw1.1]
    · intro c hc
      simp only [String.data_append, List.mem_append] at hc
      rcases hc with hc | hc
      · exact hw1.2 c hc
      · revert c
        decide
  have hl := plainWord_chars ld hld
  have hs := plainWord_chars src hsrc
  have hd := plainWord_chars dst hdst
  have hda := plainWord_chars data hdata
  have hHead : words launchHead =
      words "mpirun -host `srun hostname|nodeset -f|nodeset -e | tr \" \" \",\"` -env LD_PRELOAD" := by
    decide
  have hSize : words launchHostSize =
      words "-env HOST_SIZE `srun hostname|nodeset -f|nodeset -c`" := by
    decide
  rw [e1, words_blank_append, words_blank_append, words_blank_append, words_blank_append,
    words_blank_append, words_blank_append, words_blank_append, words_blank_append,
    words_blank_append, words_blank_append, hE, hH, words_plain ld hl.1 hl.2,
    words_plain src hs.1 hs.2, words_plain dst hd.1 hd.2, words_plain data hda.1 hda.2,
    words_empty, hHead, hSize]
  have h4 : words "-ppn" = ["-ppn"] := by decide
  have h5 : words "1" = ["1"] := by decide
  rw [h4, h5]
  simp

/-- C2 (counterexample): the operands are interpolated without quoting, so the number of
positional arguments is not four for every input. A source path with a blank reaches the
stage-in executable as two words (five positional arguments, the destination third); `cp`
with the single argument `/mnt/gkfs/x` is a stage-out whose destination is the empty string
(three positional arguments); without arguments there are two. -/
theorem launch_command_operand_count :
    fromPpn (words (stageInText (cfgMount "/mnt/gkfs") "/work"
        ["/global/my file", "/mnt/gkfs/out"])) =
      ["-ppn", "1", "/work/stage-in", "/global/my", "file", "/mnt/gkfs/out",
        "/work/gkfs_hosts.txt.pid", "/data/gkfs"] ∧
    copyBranch (ArgsGet ["/mnt/gkfs/x"] 0) (ArgsGet ["/mnt/gkfs/x"] 1) "/mnt/gkfs" = .stageOut ∧
    fromPpn (words (stageOutText (cfgMount "/mnt/gkfs") "/work" ["/mnt/gkfs/x"])) =
      ["-ppn", "1", "/work/stage-out", "/mnt/gkfs/x", "/work/gkfs_hosts.txt.pid",
        "/data/gkfs"] ∧
    fromPpn (words (stageInText (cfgMount "/mnt/gkfs") "/work" [])) =
      ["-ppn", "1", "/work/stage-in", "/work/gkfs_hosts.txt.pid", "/data/gkfs"] ∧
    ((Copy (cfgMount "/mnt/gkfs") okWorld ["/global/my file", "/mnt/gkfs/out"]
        St.init).state.trace.map (fun x => (x.kind, fromPpn (words x.text)))).getLast? =
      some (.launchIn, ["-ppn", "1", "/work/stage-in", "/global/my", "file", "/mnt/gkfs/out",
        "/work/gkfs_hosts.txt.pid", "/data/gkfs"]) := by
  refine ⟨by decide, by decide, by decide, by decide, by decide⟩

/-- C2 (amended): for every source, destination, preload-library value, working directory and
data directory that are plain words (non-empty, made of letters, digits and `/ . _ - : , + @ =`
only, so that the unquoted interpolation yields one shell word each), the command line built
by `stageIn` and the one built by `stageOut` are the same launch specification with the
executable `stage-in` and `stage-out` respectively (the stage-in text only carries one more
trailing blank), and their words are: the launcher with its host set, the preload variable
with its value, the host-count variable, then `-ppn 1`, the executable, and exactly the four
positional arguments source, destination, `<working directory>/gkfs_hosts.txt.pid`, data
directory, in this order. -/
theorem launch_command_layout (ld wd src dst data : String)
    (hld : plainWord ld = true) (hwd : plainWord wd = true) (hsrc : plainWord src = true)
    (hdst : plainWord dst = true) (hdata : plainWord data = true) :
    stageInCmd ld wd src dst data = specLaunchCmd "stage-in" ld wd src dst data ++ " " ∧
    stageOutCmd ld wd src dst data = specLaunchCmd "stage-out" ld wd src dst data ∧
    words (stageInCmd ld wd src dst data) =
      words launchHead ++ [ld] ++ words launchHostSize ++
        ["-ppn", "1", wd ++ "/" ++ "stage-in", src, dst, wd ++ "/gkfs_hosts.txt.pid", data] ∧
    words (stageOutCmd ld wd src dst data) =
      words launchHead ++ [ld] ++ words launchHostSize ++
        ["-ppn", "1", wd ++ "/" ++ "stage-out", src, dst, wd ++ "/gkfs_hosts.txt.pid", data] := by
  refine ⟨stageInCmd_eq ld wd src dst data, stageOutCmd_eq ld wd src dst data, ?_, ?_⟩
  · rw [stageInCmd_eq, words_trailing_blank]
    exact specLaunchCmd_words "stage-in" ld wd src dst data (by decide) hld hwd hsrc hdst hdata
  · rw [stageOutCmd_eq]
    exact specLaunchCmd_words "stage-out" ld wd src dst data (by decide) hld hwd hsrc hdst hdata

/-- C2 (amended) at the witness of the claim: `/global/fsA/data` to `/mnt/gkfs/out` from the
working directory `/work`. -/
theorem launch_command_layout_witness :
    words (stageInCmd "/opt/gkfs/libgkfs_intercept.so" "/work" "/global/fsA/data"
        "/mnt/gkfs/out" "/data/gkfs") =
      words launchHead ++ ["/opt/gkfs/libgkfs_intercept.so"] ++ words launchHostSize ++
        ["-ppn", "1", "/work" ++ "/" ++ "stage-in", "/global/fsA/data", "/mnt/gkfs/out",
          "/work" ++ "/gkfs_hosts.txt.pid", "/data/gkfs"] ∧
    words (stageOutCmd "/opt/gkfs/libgkfs_intercept.so" "/work" "/mnt/gkfs/out"
        "/global/fsA/data" "/data/gkfs") =
      words launchHead ++ ["/opt/gkfs/libgkfs_intercept.so"] ++ words launchHostSize ++
        ["-ppn", "1", "/work" ++ "/" ++ "stage-out", "/mnt/gkfs/out", "/global/fsA/data",
          "/work" ++ "/gkfs_hosts.txt.pid", "/data/gkfs"] :=
  ⟨(launch_command_layout "/opt/gkfs/libgkfs_intercept.so" "/work" "/global/fsA/data"
      "/mnt/gkfs/out" "/data/gkfs" (by decide) (by decide) (by decide) (by decide)
      (by decide)).2.2.1,
    (launch_command_layout "/opt/gkfs/libgkfs_intercept.so" "/work" "/mnt/gkfs/out"
      "/global/fsA/data" "/data/gkfs" (by decide) (by decide) (by decide) (by decide)
      (by decide)).2.2.2⟩

/-! ## Outcome of the launcher -/

theorem stageIn_failed (cfg : Config) (w : World) (args : List String) (s0 : St)
    (wd e : String) (h : w.getwd s0.texts = .ok wd)
    (he : (w.run s0.texts (stageInText cfg wd args)).err = some e) :
    stageIn cfg w args s0 =
      .fatal ("execute error " ++ e ++ " " ++ (w.run s0.texts (stageInText cfg wd args)).stderr)
        (((s0.println (stageInText cfg wd args)).exec .launchIn (stageInText cfg wd args)
          (some e)).println (stageInText cfg wd args)) := by
  unfold stageIn
  simp only [h, texts_println]
  simp only [stageInText] at he
  simp only [he, stageInText]

theorem stageIn_succeeded (cfg : Config) (w : World) (args : List String) (s0 : St)
    (wd : String) (h : w.getwd s0.texts = .ok wd)
    (he : (w.run s0.texts (stageInText cfg wd args)).err = none) :
    stageIn cfg w args s0 =
      .ret none (((s0.println (stageInText cfg wd args)).exec .launchIn
        (stageInText cfg wd args) none).println
          (w.run s0.texts (stageInText cfg wd args)).stdout) := by
  unfold stageIn
  simp only [h, texts_println]
  simp only [stageInText] at he
  simp only [he, stageInText]

theorem stageOut_failed (cfg : Config) (w : World) (args : List String) (s0 : St)
    (wd e : String) (h : w.getwd s0.texts = .ok wd)
    (he : (w.run s0.texts (stageOutText cfg wd args)).err = some e) :
    stageOut cfg w args s0 =
      .fatal ("execute error " ++ e ++ " " ++ (w.run s0.texts (stageOutText cfg wd args)).stderr)
        ((s0.println (stageOutText cfg wd args)).exec .launchOut (stageOutText cfg wd args)
          (some e)) := by
  unfold stageOut
  simp only [h, texts_println]
  simp only [stageOutText] at he
  simp only [he, stageOutText]

theorem stageOut_succeeded (cfg : Config) (w : World) (args : List String) (s0 : St)
    (wd : String) (h : w.getwd s0.texts = .ok wd)
    (he : (w.run s0.texts (stageOutText cfg wd args)).err = none) :
    stageOut cfg w args s0 =
      .ret none (((s0.println (stageOutText cfg wd args)).exec .launchOut
        (stageOutText cfg wd args) none).println
          (w.run s0.texts (stageOutText cfg wd args)).stdout) := by
  unfold stageOut
  simp only [h, texts_println]
  simp only [stageOutText] at he
  simp only [he, stageOutText]

theorem fatal_message_ends_with_stderr (e errText : String) :
    errText.data <:+ ("execute error " ++ e ++ " " ++ errText).data := by
  simp only [String.data_append]
  exact List.suffix_append _ _

/-- C7: for `stageIn` and for `stageOut`, once the working directory is read and the single
launcher invocation has ended: if the launcher failed, the function ends in a fatal error
whose message is `execute error`, the error and the captured standard error verbatim (the
message ends with it), and the only lines printed are the command line itself, never the
captured standard output; if the launcher exited with status zero, the function prints the
command line and the captured standard output and returns no error. -/
theorem launcher_outcome (cfg : Config) (w : World) (args : List String) (s0 : St) (wd : String)
    (h : w.getwd s0.texts = .ok wd) :
    (∀ e, (w.run s0.texts (stageInText cfg wd args)).err = some e →
      (∃ msg s, stageIn cfg w args s0 = .fatal msg s ∧
        (w.run s0.texts (stageInText cfg wd args)).stderr.data <:+ msg.data ∧
        s.out = s0.out ++ [stageInText cfg wd args, stageInText cfg wd args])) ∧
    ((w.run s0.texts (stageInText cfg wd args)).err = none →
      (∃ s, stageIn cfg w args s0 = .ret none s ∧
        s.out = s0.out ++ [stageInText cfg wd args,
          (w.run s0.texts (stageInText cfg wd args)).stdout])) ∧
    (∀ e, (w.run s0.texts (stageOutText cfg wd args)).err = some e →
      (∃ msg s, stageOut cfg w args s0 = .fatal msg s ∧
        (w.run s0.texts (stageOutText cfg wd args)).stderr.data <:+ msg.data ∧
        s.out = s0.out ++ [stageOutText cfg wd args])) ∧
    ((w.run s0.texts (stageOutText cfg wd args)).err = none →
      (∃ s, stageOut cfg w args s0 = .ret none s ∧
        s.out = s0.out ++ [stageOutText cfg wd args,
          (w.run s0.texts (stageOutText cfg wd args)).stdout])) := by
  refine ⟨?_, ?_, ?_, ?_⟩
  · intro e he
    exact ⟨_, _, stageIn_failed cfg w args s0 wd e h he,
      fatal_message_ends_with_stderr _ _, by simp [St.println, St.exec]⟩
  · intro he
    exact ⟨_, stageIn_succeeded cfg w args s0 wd h he, by simp [St.println, St.exec]⟩
  · intro e he
    exact ⟨_, _, stageOut_failed cfg w args s0 wd e h he,
      fatal_message_ends_with_stderr _ _, by simp [St.println, St.exec]⟩
  · intro he
    exact ⟨_, stageOut_succeeded cfg w args s0 wd h he, by simp [St.println, St.exec]⟩

/-- C7 at a run whose launcher fails after printing `partial` and reporting `mpirun: boom`:
the fatal message ends with the error text and the printed lines are the command line only;
and at a run whose launcher succeeds. -/
theorem launcher_outcome_witness :
    (∃ msg s, stageIn (cfgMount "/mnt/gkfs") (launchFailWorld "partial" "mpirun: boom")
        ["/global/fsA/data", "/mnt/gkfs/out"]
        (GenerateHostFile (cfgMount "/mnt/gkfs") okWorld St.init).state = .fatal msg s ∧
      "mpirun: boom".data <:+ msg.data ∧
      s.out = [stageInText (cfgMount "/mnt/gkfs") "/work" ["/global/fsA/data", "/mnt/gkfs/out"],
        stageInText (cfgMount "/mnt/gkfs") "/work" ["/global/fsA/data", "/mnt/gkfs/out"]]) ∧
    (∃ s, stageOut (cfgMount "/mnt/gkfs") okWorld ["/mnt/gkfs/out", "/global/fsA/data"]
        St.init = .ret none s ∧
      s.out = [stageOutText (cfgMount "/mnt/gkfs") "/work" ["/mnt/gkfs/out", "/global/fsA/data"],
        ""]) :=
  ⟨(launcher_outcome (cfgMount "/mnt/gkfs") (launchFailWorld "partial" "mpirun: boom")
      ["/global/fsA/data", "/mnt/gkfs/out"]
      (GenerateHostFile (cfgMount "/mnt/gkfs") okWorld St.init).state "/work" rfl).1
        "exit status 1" rfl,
    (launcher_outcome (cfgMount "/mnt/gkfs") okWorld ["/mnt/gkfs/out", "/global/fsA/data"]
      St.init "/work" rfl).2.2.2 rfl⟩

/-- With host names none of which occurs in the line of another node (Scenario A of the
specification), every node selects its own line only; a node without listener gets the
sentinel. -/
theorem probe_nodeA_nodeB :
    (probeAll ["nodeA gkfs://nodeA:6000", "nodeB gkfs://nodeB:6000"]
        [⟨"nodeA", true, fun _ => "811"⟩, ⟨"nodeB", true, fun _ => ""⟩]).map
        HostRecord.render =
      ["nodeA: gkfs://nodeA:6000:811", "nodeB: gkfs://nodeB:6000:PID not found"] := by
  decide

/-- C8 (evaluation at the failing input): the host list has the two distinct node names
`node1` and `node10`, both nodes answer, and the fan-out writes three records, two of them
for `node10`: the `grep` run on `node1` also selects the line of `node10`. -/
theorem probe_writes_node10_twice :
    (hostLines2.map nodeName) = ["node1", "node10"] ∧
    (hostLines2.map nodeName).Nodup ∧
    (probeAll hostLines2 nodes2).map HostRecord.render =
      ["node1: gkfs://node1:6000:4242", "node10: gkfs://node10:6000:4242",
        "node10: gkfs://node10:6000:4242"] ∧
    ¬ ((probeAll hostLines2 nodes2).map HostRecord.node).Nodup ∧
    hostLines2.length < (probeAll hostLines2 nodes2).length := by
  refine ⟨by decide, by decide, by decide, by decide, by decide⟩

/-! ## The version order is a total preorder -/

theorem tokLt_irrefl (a : Nat × Nat) : tokLt a a = false := by
  simp [tokLt]

theorem tokLt_asymm (a b : Nat × Nat) (h : tokLt a b = true) : tokLt b a = false := by
  simp only [tokLt, Bool.or_eq_true, Bool.and_eq_true, decide_eq_true_eq, Bool.or_eq_false_iff,
    Bool.and_eq_false_imp, decide_eq_false_iff_not] at *
  omega

theorem tokLt_trans (a b c : Nat × Nat) (h1 : tokLt a b = true) (h2 : tokLt b c = true) :
    tokLt a c = true := by
  simp only [tokLt, Bool.or_eq_true, Bool.and_eq_true, decide_eq_true_eq] at *
  omega

theorem tok_eq_of_not_lt (a b : Nat × Nat) (h1 : tokLt a b = false) (h2 : tokLt b a = false) :
    a = b := by
  simp only [tokLt, Bool.or_eq_false_iff, Bool.and_eq_false_imp, decide_eq_false_iff_not,
    decide_eq_true_eq] at *
  apply Prod.ext <;> omega

theorem lexLe_total (x y : List (Nat × Nat)) : lexLe x y = true ∨ lexLe y x = true := by
  induction x generalizing y with
  | nil => exact Or.inl (by simp [lexLe])
  | cons a as ih =>
    cases y with
    | nil => exact Or.inr (by simp [lexLe])
    | cons b bs =>
      simp only [lexLe]
      cases hab : tokLt a b
      · cases hba : tokLt b a
        · simpa using ih bs
        · simp
      · simp

theorem lexLe_trans (x y z : List (Nat × Nat)) (h1 : lexLe x y = true) (h2 : lexLe y z = true) :
    lexLe x z = true := by
  induction x generalizing y z with
  | nil => simp [lexLe]
  | cons a as ih =>
    cases y with
    | nil => simp [lexLe] at h1
    | cons b bs =>
      cases z with
      | nil => simp [lexLe] at h2
      | cons c cs =>
        simp only [lexLe] at h1 h2 ⊢
        cases hab : tokLt a b
        · cases hba : tokLt b a
          · have e := tok_eq_of_not_lt a b hab hba
            subst e
            simp only [hab, Bool.false_eq_true, if_false] at h1
            cases hac : tokLt a c
            · cases hca : tokLt c a
              · simp only [hac, hca, Bool.false_eq_true, if_false] at h2 ⊢
                exact ih bs cs h1 h2
              · simp [hac, hca] at h2
            · simp
          · simp [hab, hba] at h1
        · cases hbc : tokLt b c
          · cases hcb : tokLt c b
            · have e := tok_eq_of_not_lt b c hbc hcb
              subst e
              simp [hab]
            · simp [hbc, hcb] at h2
          · simp [tokLt_trans a b c hab hbc]

instance : IsTotal String VersionLe := ⟨fun _ _ => lexLe_total _ _⟩
instance : IsTrans String VersionLe := ⟨fun _ _ _ => lexLe_trans _ _ _⟩

theorem versionSort_sorted (l : List String) : (versionSort l).Pairwise VersionLe :=
  List.sorted_insertionSort VersionLe l

theorem mem_versionSort (a : String) (l : List String) : a ∈ versionSort l ↔ a ∈ l :=
  (List.perm_insertionSort VersionLe l).mem_iff

theorem verTokensAux_stem (stem rest : List Char) (hs : ∀ c ∈ stem, c.isDigit = false) :
    verTokensAux none (stem ++ rest) =
      stem.map (fun c => (1, c.toNat)) ++ verTokensAux none rest := by
  induction stem with
  | nil => rfl
  | cons c cs ih =>
    have hc : c.isDigit = false := hs c (by simp)
    have ih2 := ih (fun d hd => hs d (by simp [hd]))
    simp [verTokensAux, hc, ih2]

theorem verTokensAux_flush (n : Nat) (rest : List Char)
    (hr : ∀ c, rest.head? = some c → c.isDigit = false) :
    verTokensAux (some n) rest = (0, n) :: verTokensAux none rest := by
  cases rest with
  | nil => rfl
  | cons c cs =>
    have hc : c.isDigit = false := hr c rfl
    simp [verTokensAux, hc]

theorem verTokensAux_digits (n : Nat) (d rest : List Char) (hd : ∀ c ∈ d, c.isDigit = true)
    (hr : ∀ c, rest.head? = some c → c.isDigit = false) :
    verTokensAux (some n) (d ++ rest) = (0, digitsVal n d) :: verTokensAux none rest := by
  induction d generalizing n with
  | nil => exact verTokensAux_flush n rest hr
  | cons c cs ih =>
    have hc : c.isDigit = true := hd c (by simp)
    have ih2 := ih (n * 10 + (c.toNat - 48)) (fun x hx => hd x (by simp [hx]))
    rw [List.cons_append, verTokensAux]
    rw [if_pos hc]
    show verTokensAux (some (n * 10 + (c.toNat - 48))) (cs ++ rest) =
      (0, digitsVal (n * 10 + (c.toNat - 48)) cs) :: verTokensAux none rest
    exact ih2

theorem verTokensAux_number (d rest : List Char) (hne : d ≠ [])
    (hd : ∀ c ∈ d, c.isDigit = true) (hr : ∀ c, rest.head? = some c → c.isDigit = false) :
    verTokensAux none (d ++ rest) = (0, digitsVal 0 d) :: verTokensAux none rest := by
  cases d with
  | nil => exact absurd rfl hne
  | cons c cs =>
    have hc : c.isDigit = true := hd c (by simp)
    have h := verTokensAux_digits (0 * 10 + (c.toNat - 48)) cs rest
      (fun x hx => hd x (by simp [hx])) hr
    rw [List.cons_append, verTokensAux, if_pos hc]
    exact h

theorem lexLe_append_left (p x y : List (Nat × Nat)) : lexLe (p ++ x) (p ++ y) = lexLe x y := by
  induction p with
  | nil => rfl
  | cons a as ih => simp [lexLe, tokLt_irrefl, ih]

theorem verTokens_name (stem d rest : List Char) (hs : ∀ c ∈ stem, c.isDigit = false)
    (hne : d ≠ []) (hd : ∀ c ∈ d, c.isDigit = true)
    (hr : ∀ c, rest.head? = some c → c.isDigit = false) :
    verTokensAux none (stem ++ d ++ rest) =
      stem.map (fun c => (1, c.toNat)) ++ (0, digitsVal 0 d) :: verTokensAux none rest := by
  rw [List.append_assoc, verTokensAux_stem stem _ hs, verTokensAux_number d rest hne hd hr]

theorem versionLe_of_suffix_lt (stem d1 d2 r1 r2 : List Char)
    (hs : ∀ c ∈ stem, c.isDigit = false)
    (hn1 : d1 ≠ []) (hd1 : ∀ c ∈ d1, c.isDigit = true)
    (hn2 : d2 ≠ []) (hd2 : ∀ c ∈ d2, c.isDigit = true)
    (hr1 : ∀ c, r1.head? = some c → c.isDigit = false)
    (hr2 : ∀ c, r2.head? = some c → c.isDigit = false)
    (hlt : digitsVal 0 d1 < digitsVal 0 d2) :
    VersionLe (String.mk (stem ++ d1 ++ r1)) (String.mk (stem ++ d2 ++ r2)) ∧
    ¬ VersionLe (String.mk (stem ++ d2 ++ r2)) (String.mk (stem ++ d1 ++ r1)) := by
  unfold VersionLe
  simp only [verTokens_name stem d1 r1 hs hn1 hd1 hr1, verTokens_name stem d2 r2 hs hn2 hd2 hr2,
    lexLe_append_left, lexLe, tokLt]
  have h1 : ¬ digitsVal 0 d2 < digitsVal 0 d1 := by omega
  simp [hlt, h1]

theorem pair_sublist_of_pairwise {R : String → String → Prop} (l : List String) (a b : String)
    (hp : l.Pairwise R) (ha : a ∈ l) (hb : b ∈ l) (hne : a ≠ b) (hba : ¬ R b a) :
    List.Sublist [a, b] l := by
  induction l with
  | nil => simp at ha
  | cons x xs ih =>
    rw [List.pairwise_cons] at hp
    rcases List.mem_cons.mp ha with hax | hax
    · subst hax
      rcases List.mem_cons.mp hb with hbx | hbx
      · exact absurd hbx.symm hne
      · exact List.Sublist.cons₂ _ (List.singleton_sublist.mpr hbx)
    · rcases List.mem_cons.mp hb with hbx | hbx
      · subst hbx
        exact absurd (hp.1 a hax) hba
      · exact List.Sublist.cons _ (ih hp.2 hax hbx)

/-! ## The probe command line and the order it applies -/

set_option maxRecDepth 100000 in
theorem probeFormat_data : probeFormat.data =
    probeText0.data ++ '%' :: 's' :: (probeText1.data ++ '%' :: 's' :: (probeText2.data ++
      '%' :: 's' :: (probeText3.data ++ '%' :: 's' :: (probeText4.data ++ '%' :: 's' ::
      ((probeText5.data ++ probeSortText.data) ++ '%' :: 's' :: (probeText6.data ++
      '%' :: 's' :: (probeText7.data ++ []))))))) := by
  rfl

theorem probeCmd_eq (curDir clushFile hostsFile : String) :
    probeCmd curDir clushFile hostsFile =
      probeText0 ++ curDir ++ probeText1 ++ clushFile ++ probeText2 ++ hostsFile ++ probeText3 ++
        hostsFile ++ probeText4 ++ curDir ++ probeText5 ++ probeSortText ++ curDir ++
        probeText6 ++ curDir ++ probeText7 := by
  apply String.ext
  simp only [probeCmd, Sprintf, probeFormat_data, String.data_append]
  rw [sprintfAux_seg _ (by decide), sprintfAux_seg _ (by decide), sprintfAux_seg _ (by decide),
    sprintfAux_seg _ (by decide), sprintfAux_seg _ (by decide), sprintfAux_seg _ (by decide),
    sprintfAux_seg _ (by decide), sprintfAux_lit _ (by decide)]
  simp only [sprintfAux, List.append_assoc, List.append_nil]

/-- C9: `GenerateHostFile` orders the canonical host list and the topology map with the
key-1 version sort (`sort -k 1 -V`, in the sort command and inside the probe command). For
two lines whose node names share a stem without digits and continue with digit runs, the one
with the numerically smaller run (so `node2` against `node10`, whatever the digit counts)
is strictly before the other in the version order, and in the sorted output of every file
holding both lines it stands before the other, never after it. -/
theorem version_sort_numeric_suffix (stem d1 d2 r1 r2 : List Char) (lines : List String)
    (hs : ∀ c ∈ stem, c.isDigit = false)
    (hn1 : d1 ≠ []) (hd1 : ∀ c ∈ d1, c.isDigit = true)
    (hn2 : d2 ≠ []) (hd2 : ∀ c ∈ d2, c.isDigit = true)
    (hr1 : ∀ c, r1.head? = some c → c.isDigit = false)
    (hr2 : ∀ c, r2.head? = some c → c.isDigit = false)
    (hlt : digitsVal 0 d1 < digitsVal 0 d2)
    (ha : String.mk (stem ++ d1 ++ r1) ∈ lines) (hb : String.mk (stem ++ d2 ++ r2) ∈ lines) :
    VersionLe (String.mk (stem ++ d1 ++ r1)) (String.mk (stem ++ d2 ++ r2)) ∧
    ¬ VersionLe (String.mk (stem ++ d2 ++ r2)) (String.mk (stem ++ d1 ++ r1)) ∧
    List.Sublist [String.mk (stem ++ d1 ++ r1), String.mk (stem ++ d2 ++ r2)]
      (versionSort lines) ∧
    ¬ List.Sublist [String.mk (stem ++ d2 ++ r2), String.mk (stem ++ d1 ++ r1)]
      (versionSort lines) ∧
    (words sortCmd).take 4 = ["sort", "-k", "1", "-V"] ∧
    (∀ curDir clushFile hostsFile : String, ∃ pre post : String,
      probeCmd curDir clushFile hostsFile =
        pre ++ "sort -k 1 -V " ++ curDir ++ "/gkfs_hosts.txt.pid.bak -o " ++ curDir ++
          "/gkfs_hosts.txt.pid" ++ post) := by
  have hv := versionLe_of_suffix_lt stem d1 d2 r1 r2 hs hn1 hd1 hn2 hd2 hr1 hr2 hlt
  have hne : String.mk (stem ++ d1 ++ r1) ≠ String.mk (stem ++ d2 ++ r2) := by
    intro e
    rw [e] at hv
    exact hv.2 hv.1
  refine ⟨hv.1, hv.2, ?_, ?_, by decide, ?_⟩
  · exact pair_sublist_of_pairwise _ _ _ (versionSort_sorted lines)
      ((mem_versionSort _ _).2 ha) ((mem_versionSort _ _).2 hb) hne hv.2
  · intro hsub
    have hp := List.Pairwise.sublist hsub (versionSort_sorted lines)
    rw [List.pairwise_cons] at hp
    exact hv.2 (hp.1 _ (by simp))
  · intro curDir clushFile hostsFile
    refine ⟨probeText0 ++ curDir ++ probeText1 ++ clushFile ++ probeText2 ++ hostsFile ++
      probeText3 ++ hostsFile ++ probeText4 ++ curDir ++ probeText5,
      "; else echo \"Required gkfs_hosts relation files or some commands are missing\"; fi 1>&2\x27", ?_⟩
    rw [probeCmd_eq]
    apply String.ext
    simp only [String.data_append, List.append_assoc]
    rfl

/-- C9 at the witness of the claim: the host-list lines of `node2` and `node10`, given in the
wrong order, come out with `node2` first. -/
theorem version_sort_numeric_suffix_witness :
    VersionLe "node2 gkfs://node2:6000" "node10 gkfs://node10:6000" ∧
    ¬ VersionLe "node10 gkfs://node10:6000" "node2 gkfs://node2:6000" ∧
    List.Sublist ["node2 gkfs://node2:6000", "node10 gkfs://node10:6000"]
      (versionSort ["node10 gkfs://node10:6000", "node2 gkfs://node2:6000"]) :=
  have h := version_sort_numeric_suffix "node".data "2".data "10".data
    " gkfs://node2:6000".data " gkfs://node10:6000".data
    ["node10 gkfs://node10:6000", "node2 gkfs://node2:6000"]
    (by decide) (by decide) (by decide) (by decide) (by decide)
    (fun c hc => by cases hc; decide) (fun c hc => by cases hc; decide)
    (by decide) (by decide) (by decide)
  ⟨h.1, h.2.1, h.2.2.1⟩

end Staging
